import Mathlib

/-!
Verification of the directus-template-api extract/apply pipeline.

The development shallowly embeds the content loader (`src/lib/load/load-data.ts`),
the relation loader (`load-relations.ts`), the apply orchestrator (`load/index.ts`),
the collection/content extractors (`extract-collections.ts`, `extract-content.ts`)
and the API authentication middleware (`auth middleware`), and proves the
spec-level properties about phase ordering, skeleton diffing, pagination,
audit-field stripping, relation identity keys, idempotence and authentication.
-/

namespace Directus

/-- Dynamically-typed JSON-ish values carried in content records.
`vUndefined` models the JavaScript `undefined` produced by a missing key. -/
inductive Val where
  | vNull
  | vUndefined
  | vBool (b : Bool)
  | vInt (n : Int)
  | vStr (s : String)
deriving DecidableEq, Repr

/-- A content record: a JavaScript object, modelled as an association list from
key to value (first binding wins on lookup, matching object key uniqueness). -/
abbrev Record := List (String × Val)

/-- JavaScript member access `record[key]`: the bound value, or `undefined`. -/
def getFieldVal (r : Record) (k : String) : Val :=
  (r.lookup k).getD .vUndefined

/-- The `meta` block of a collection. `group` is `none` when the meta block is
absent or its `group` key is null/absent (all compare unequal to `'_extensions'`
in the source's optional-chained checks). -/
structure CollectionMeta where
  group : Option String
  singleton : Bool
deriving DecidableEq, Repr

/-- A collection as read from the `collections` blob / `readCollections`:
its name, whether `schema` is non-null, and its meta block. -/
structure Collection where
  collection : String
  schema : Option Unit
  meta : CollectionMeta
deriving DecidableEq, Repr

/-- The `schema` block of a field, as far as the loader consults it. -/
structure FieldSchema where
  is_primary_key : Bool
deriving DecidableEq, Repr

/-- A field as read from the `fields` blob. `schema` is `none` when null. -/
structure TField where
  collection : String
  fieldName : String
  schema : Option FieldSchema
deriving DecidableEq, Repr

/-! ## Authentication middleware (API server) -/

/-- JavaScript truthiness of an optional string header / env variable:
absent and empty strings are falsy. -/
def truthyStr : Option String → Bool
  | none => false
  | some s => s != ""

/-- Result of the Express authentication middleware: pass the request to the
handler, or reject with 401 / 403. -/
inductive AuthResult where
  | passed
  | unauthorized401
  | forbidden403
deriving DecidableEq, Repr

/-- The credential-bearing headers of an incoming request. -/
structure AuthRequest where
  authorization : Option String
  xApiKey : Option String
deriving DecidableEq, Repr

/-- Token extraction from the request, as in `authMiddleware`: the
`Authorization` header (with `Bearer ` prefix stripped when present) when
truthy, otherwise the `X-API-Key` header when truthy. -/
def providedToken (req : AuthRequest) : Option String :=
  if truthyStr req.authorization then
    match req.authorization with
    | some h => some (if h.startsWith "Bearer " then h.drop 7 else h)
    | none => none
  else if truthyStr req.xApiKey then
    req.xApiKey
  else
    none

/-- JavaScript's `String.prototype.trim()`: drop leading and trailing
whitespace characters. -/
def jsTrim (s : String) : String :=
  ⟨((s.data.dropWhile (fun c => c.isWhitespace)).reverse.dropWhile
      (fun c => c.isWhitespace)).reverse⟩

/-- Guard `!apiToken || apiToken.trim().length === 0`: authentication is
disabled when the configured token is unset, empty or whitespace-only. -/
def authDisabled : Option String → Bool
  | none => true
  | some t => jsTrim t == ""

/-- The authentication middleware `authMiddleware`, embedded as a total
function from the configured `API_AUTH_TOKEN` and the request headers to
the response decision. -/
def authMiddleware (apiToken : Option String) (req : AuthRequest) : AuthResult :=
  if authDisabled apiToken then
    .passed
  else
    match providedToken req with
    | none => .unauthorized401
    | some p =>
      if p == "" then .unauthorized401
      else if apiToken == some p then .passed
      else .forbidden403

/-! ## Collection extractors (`extractCollections`, `getCollections`) -/

/-- The filtering pipeline of `extractCollections`: drop `directus_`-prefixed
collections, drop `_extensions`-group collections, then — only when
`excludeExtensionCollections` is set — apply the extension-group filter again. -/
def extractCollectionsFilter (response : List Collection)
    (excludeExtensionCollections : Bool) : List Collection :=
  let collections := (response.filter
      (fun c => !c.collection.startsWith "directus_")).filter
      (fun c => c.meta.group != some "_extensions")
  if excludeExtensionCollections then
    collections.filter (fun c => c.meta.group != some "_extensions")
  else
    collections

/-- The collection-name computation of the content extractor's
`getCollections`: drop `directus_`-prefixed collections, drop schema-less
collections, drop `_extensions`-group collections, conditionally repeat the
extension filter, and keep the names. -/
def getCollectionsNames (response : List Collection)
    (excludeExtensionCollections : Bool) : List String :=
  let collections := ((response.filter
      (fun c => !c.collection.startsWith "directus_")).filter
      (fun c => c.schema.isSome)).filter
      (fun c => c.meta.group != some "_extensions")
  let collections :=
    if excludeExtensionCollections then
      collections.filter (fun c => c.meta.group != some "_extensions")
    else
      collections
  collections.map (fun c => c.collection)

/-! ## Content loader (`load-data.ts`) -/

/-- Batch size used by the skeleton and full phases (`BATCH_SIZE = 50`). -/
def BATCH_SIZE : Nat := 50

/-- Structural worker for `chunkArray`; the fuel argument (instantiated with
the list length) only realises termination of the take/drop loop. -/
def chunkArrayGo (n : Nat) : Nat → List α → List (List α)
  | 0, _ => []
  | _ + 1, [] => []
  | fuel + 1, x :: xs => (x :: xs).take n :: chunkArrayGo n fuel ((x :: xs).drop n)

/-- Modelled from the spec: the chunking helper `chunkArray`
(`src/lib/utils/chunk-array.js`, not part of the corpus) partitions a list
into consecutive fixed-size batches ("fixed-size batches (batch size 50)"). -/
def chunkArray (l : List α) (n : Nat) : List (List α) :=
  if n = 0 then [] else chunkArrayGo n l.length l

/-- An error captured through the `catchError` utility, carrying its message
and the `fatal` classification flag. -/
structure ErrorCapture where
  message : String
  fatal : Bool
deriving DecidableEq, Repr

/-- The three phases of `loadData`, tagging the requests each issues. -/
inductive Phase where
  | skeleton
  | full
  | singletonPhase
deriving DecidableEq, Repr

/-- Barrier rank of a phase inside `loadData` (skeleton before full before
singleton). -/
def phaseRank : Phase → Nat
  | .skeleton => 0
  | .full => 1
  | .singletonPhase => 2

/-- A write request issued to the target instance by the content loader:
the phase it belongs to, the collection written, and the submitted records
(a batch for `createItems` / `updateItemsBatch`, a one-element list for
`updateSingleton`). -/
structure Request where
  phase : Phase
  collection : String
  payload : List Record
deriving DecidableEq, Repr

/-- `getCollectionPrimaryKeys`: fold the `fields` blob into a map from
collection name to its primary-key field name; a later field with
`schema.is_primary_key` overwrites an earlier one, which the association-list
representation realises by consing (first lookup wins). -/
def getCollectionPrimaryKeys (fields : List TField) : List (String × String) :=
  fields.foldl (fun m f =>
    match f.schema with
    | some s => if s.is_primary_key then (f.collection, f.fieldName) :: m else m
    | none => m) []

/-- `getPrimaryKey`: look the collection up in the primary-key map; a missing
(or JavaScript-falsy, i.e. empty-string) entry is a fatal captured error
naming the collection. -/
def getPrimaryKey (collectionsMap : List (String × String)) (collection : String) :
    Except ErrorCapture String :=
  match collectionsMap.lookup collection with
  | none =>
      .error ⟨"Collection " ++ collection ++ " not found in collections map", true⟩
  | some f =>
      if f = "" then
        .error ⟨"Collection " ++ collection ++ " not found in collections map", true⟩
      else .ok f

/-- The eligibility pipeline shared by `loadSkeletonRecords` and
`loadFullData`: non-`directus_` name, non-null schema, non-singleton meta,
present among the target instance's collection names. -/
def userCollections (collections : List Collection) (target : List String) :
    List Collection :=
  (((collections.filter
      (fun c => !c.collection.startsWith "directus_")).filter
      (fun c => c.schema.isSome)).filter
      (fun c => !c.meta.singleton)).filter
      (fun c => target.contains c.collection)

/-- The eligibility pipeline of `loadSingletons`: non-`directus_` name,
singleton meta, present in the target (no schema filter). -/
def singletonCollections (collections : List Collection) (target : List String) :
    List Collection :=
  ((collections.filter
      (fun c => !c.collection.startsWith "directus_")).filter
      (fun c => c.meta.singleton)).filter
      (fun c => target.contains c.collection)

/-- The records of `data` whose primary-key value is not among the target's
existing primary keys (`data.filter(entry => !existingPrimaryKeys.has(...))`). -/
def skeletonNewData (data : List Record) (primaryKeyField : String)
    (existing : List Val) : List Record :=
  data.filter (fun entry => !(existing.contains (getFieldVal entry primaryKeyField)))

/-- Projection of a record to its primary-key column only
(`{[primaryKeyField]: entry[primaryKeyField]}`). -/
def pkProjection (primaryKeyField : String) (entry : Record) : Record :=
  [(primaryKeyField, getFieldVal entry primaryKeyField)]

/-- The per-collection unit of the skeleton phase: skip when the content blob
is absent, resolve the primary-key field (fatally erroring when absent),
diff against the target's existing keys, and emit one `createItems` request
per batch of at most `BATCH_SIZE` projected records; no request when the
difference is empty. -/
def runSkeletonCollection (content : Option (List Record))
    (pkMap : List (String × String)) (existing : List Val) (name : String) :
    Except ErrorCapture (List Request) :=
  match content with
  | none => .ok []
  | some data =>
    match getPrimaryKey pkMap name with
    | .error e => .error e
    | .ok primaryKeyField =>
      let newData := skeletonNewData data primaryKeyField existing
      if newData.length = 0 then .ok []
      else
        let batches := (chunkArray newData BATCH_SIZE).map
          (fun batch => batch.map (pkProjection primaryKeyField))
        .ok (batches.map (fun b => ⟨.skeleton, name, b⟩))

/-- Removal of the audit fields `user_created` and `user_updated` from a
record (the object-rest destructuring in `loadFullData` / `loadSingletons`). -/
def cleanRecord (r : Record) : Record :=
  r.filter (fun kv => kv.1 != "user_created" && kv.1 != "user_updated")

/-- The per-collection unit of the full phase: skip when the content blob is
absent, otherwise emit one `updateItemsBatch` request per batch of cleaned
records. -/
def runFullCollection (content : Option (List Record)) (name : String) :
    List Request :=
  match content with
  | none => []
  | some data =>
    ((chunkArray data BATCH_SIZE).map
      (fun batch => batch.map cleanRecord)).map
      (fun b => ⟨.full, name, b⟩)

/-- The per-collection unit of the singleton phase: skip when the content
blob is absent, otherwise emit a single `updateSingleton` request carrying
the cleaned record. -/
def runSingletonCollection (content : Option Record) (name : String) :
    List Request :=
  match content with
  | none => []
  | some data => [⟨.singletonPhase, name, [cleanRecord data]⟩]

/-! ## Pagination (`getExistingPrimaryKeys`) -/

/-- Page size of the existing-primary-key pagination (`limit = 1000`). -/
def PAGE_LIMIT : Nat := 1000

/-- The pagination loop of `getExistingPrimaryKeys`, fuel-indexed so that
non-termination against a target that never returns a short page is
represented by `none`. `pages` maps a page number to the target's response
for that page; the loop returns the list of page numbers requested, in
request order, together with the accumulated primary-key values. The page
counter starts at 1; a page is requested, then the loop breaks on an empty
response before accumulating, accumulates otherwise, and breaks after
accumulating when the response is shorter than the limit. -/
def getEPKLoop (pages : Nat → List Record) (primaryKeyField : String) :
    Nat → Nat → List Nat → List Val → Option (List Nat × List Val)
  | _page, 0, _reqs, _acc => none
  | page, fuel + 1, reqs, acc =>
    let response := pages page
    let reqs := reqs ++ [page]
    if response.length = 0 then some (reqs, acc)
    else
      let acc := acc ++ response.map (fun item => getFieldVal item primaryKeyField)
      if response.length < PAGE_LIMIT then some (reqs, acc)
      else getEPKLoop pages primaryKeyField (page + 1) fuel reqs acc

/-- `getExistingPrimaryKeys` for a given fuel bound: run the loop from
page 1 with empty accumulators. -/
def getExistingPrimaryKeys (pages : Nat → List Record) (primaryKeyField : String)
    (fuel : Nat) : Option (List Nat × List Val) :=
  getEPKLoop pages primaryKeyField 1 fuel [] []

/-! ## Relation loader (`load-relations.ts`) -/

/-- The `meta` block of a relation; the loader only manipulates its
instance-specific surrogate `id`, cleared before re-creation. -/
structure RelationMeta where
  id : Option Val
deriving DecidableEq, Repr

/-- A relation as read from the `relations` blob or `readRelations`:
the directional edge `(collection, field) -> related_collection` and its
meta block. -/
structure Relation where
  collection : String
  fieldName : String
  related_collection : String
  meta : RelationMeta
deriving DecidableEq, Repr

/-- The identity key of a relation: the string join
`collection:field:related_collection` (surrogate `meta.id` excluded). -/
def relationKey (r : Relation) : String :=
  r.collection ++ ":" ++ r.fieldName ++ ":" ++ r.related_collection

/-- Clearing of the stale surrogate key (`cleanRelation.meta.id = undefined`). -/
def clearMetaId (r : Relation) : Relation :=
  { r with meta := { r.meta with id := none } }

/-- Collection names whose meta group is `'_extensions'`, recomputed by the
relation loader from the local `collections` blob. -/
def extensionCollectionNames (collections : List Collection) : List String :=
  (collections.filter (fun c => c.meta.group == some "_extensions")).map
    (fun c => c.collection)

/-- The relation loader `loadRelations`, embedded as the ordered list of
relations submitted to `createRelation` (one request per list element,
issued sequentially in list order by `addRelations`): drop relations
involving an extension-managed collection, and — when any remain — drop
those whose identity key already exists on the target, clearing `meta.id`
on the rest. -/
def loadRelationsTrace (allRelations : List Relation)
    (collections : List Collection) (existingRelations : List Relation) :
    List Relation :=
  let extNames := extensionCollectionNames collections
  let relations := allRelations.filter (fun r =>
    !(extNames.contains r.collection) && !(extNames.contains r.related_collection))
  if relations.length > 0 then
    let existingRelationKeys := existingRelations.map relationKey
    (relations.filter
      (fun r => !(existingRelationKeys.contains (relationKey r)))).map clearMetaId
  else []

/-! ## The three-phase `loadData` trace -/

/-- Sequencing of fallible per-collection units: concatenate the requests of
each unit, short-circuiting on the first captured fatal error. -/
def seqCollect (f : α → Except ErrorCapture (List β)) :
    List α → Except ErrorCapture (List β)
  | [] => .ok []
  | x :: xs =>
    match f x with
    | .error e => .error e
    | .ok y =>
      match seqCollect f xs with
      | .error e => .error e
      | .ok ys => .ok (y ++ ys)

/-- The template directory's blobs, as the loaders read them through
`readFile`: the three schema blobs (`none` when the file is missing), plus
the per-collection content blobs under `content/`. Non-singleton content
parses as a list of records, singleton content as a single record. -/
structure Template where
  collectionsBlob : Option (List Collection)
  fieldsBlob : Option (List TField)
  relationsBlob : Option (List Relation)
  content : String → Option (List Record)
  singletonContent : String → Option Record

/-- The observable state of the target Directus instance, as the loaders
query it: its collection names (`readCollections`), the existing primary-key
values per collection (`getExistingPrimaryKeys`), and the existing relations
(`readRelations`). -/
structure TargetState where
  targetCollections : List String
  pks : String → List Val
  existingRelations : List Relation

/-- The skeleton phase `loadSkeletonRecords`: run the per-collection skeleton
unit for every eligible collection and collect the issued create requests. -/
def loadSkeletonRecordsTrace (tpl : Template) (st : TargetState) :
    Except ErrorCapture (List Request) :=
  let collections := tpl.collectionsBlob.getD []
  let pkMap := getCollectionPrimaryKeys (tpl.fieldsBlob.getD [])
  seqCollect
    (fun c => runSkeletonCollection (tpl.content c.collection) pkMap
      (st.pks c.collection) c.collection)
    (userCollections collections st.targetCollections)

/-- The full phase `loadFullData`: the update requests of every eligible
collection. -/
def loadFullDataTrace (tpl : Template) (st : TargetState) : List Request :=
  ((userCollections (tpl.collectionsBlob.getD []) st.targetCollections).map
    (fun c => runFullCollection (tpl.content c.collection) c.collection)).flatten

/-- The singleton phase `loadSingletons`: the update-singleton requests of
every eligible singleton collection. -/
def loadSingletonsTrace (tpl : Template) (st : TargetState) : List Request :=
  ((singletonCollections (tpl.collectionsBlob.getD []) st.targetCollections).map
    (fun c => runSingletonCollection (tpl.singletonContent c.collection)
      c.collection)).flatten

/-- `loadData`: awaits the skeleton phase, then the full phase, then the
singleton phase; the trace of issued requests is their concatenation, and a
fatal skeleton error aborts the run before any later-phase request. -/
def loadDataTrace (tpl : Template) (st : TargetState) :
    Except ErrorCapture (List Request) :=
  match loadSkeletonRecordsTrace tpl st with
  | .error e => .error e
  | .ok skel =>
    .ok (skel ++ loadFullDataTrace tpl st ++ loadSingletonsTrace tpl st)

/-! ## Apply orchestrator (`load/index.ts`) -/

/-- The load steps the apply orchestrator can invoke, in source order. -/
inductive LoadStep where
  | loadCollections
  | loadRelations
  | loadRoles
  | loadPolicies
  | loadPermissions
  | loadUsers
  | loadAccess
  | loadFolders
  | loadFiles
  | loadData
  | updateRequiredFields
  | loadDashboards
  | loadFlows
  | loadSettings
  | loadTranslations
  | loadPresets
  | loadExtensions
deriving DecidableEq, Repr

/-- The capability flags consulted by `apply`. -/
structure ApplyFlags where
  schema : Bool
  permissions : Bool
  users : Bool
  files : Bool
  content : Bool
  dashboards : Bool
  flows : Bool
  settings : Bool
  extensions : Bool
deriving DecidableEq, Repr

/-- Modelled from the spec: `checkTemplate` (`src/lib/utils/check-template.ts`,
not part of the corpus) "verifies the minimum required blobs (collections,
fields, relations) exist". -/
def checkTemplate (tpl : Template) : Bool :=
  tpl.collectionsBlob.isSome && tpl.fieldsBlob.isSome && tpl.relationsBlob.isSome

/-- The flag-gated load-step sequence executed by `apply` once the template
compatibility check has passed. -/
def applySteps (flags : ApplyFlags) : List LoadStep :=
  (if flags.schema then [.loadCollections, .loadRelations] else []) ++
  (if flags.permissions || flags.users then
    [.loadRoles, .loadPolicies, .loadPermissions] ++
      (if flags.users then [.loadUsers] else []) ++ [.loadAccess]
  else []) ++
  (if flags.files then [.loadFolders, .loadFiles] else []) ++
  (if flags.content then [.loadData] else []) ++
  (if flags.schema then [.updateRequiredFields] else []) ++
  (if flags.dashboards then [.loadDashboards] else []) ++
  (if flags.flows then [.loadFlows] else []) ++
  (if flags.settings then [.loadSettings, .loadTranslations, .loadPresets] else []) ++
  (if flags.extensions then [.loadExtensions] else [])

/-- The user-visible `ux.error` message printed when the compatibility check
fails. -/
def OLD_TEMPLATE_ERROR : String :=
  "The template is missing the collections, fields, or relations files. Older templates are not supported in v0.4 of directus-template-cli. Try using v0.3 to load older templates npx directus-template-cli@0.3 apply or extract the template using latest version before applying. Exiting..."

/-- The apply orchestrator `apply`: abort with the older-template error when
the compatibility check fails (before any load step), otherwise run the
flag-gated steps. -/
def applyRun (tpl : Template) (flags : ApplyFlags) : Except String (List LoadStep) :=
  if !checkTemplate tpl then .error OLD_TEMPLATE_ERROR
  else .ok (applySteps flags)

/-! ## Effect of one apply run on the target (for idempotence) -/

/-- Modelled from the spec: the effect of one complete apply run on the
target instance's observable content state. The skeleton phase creates a
record for every source record whose primary key was absent, the full and
singleton phases update records in place, and "no entity is ever deleted by
this pipeline", so the resulting primary-key set of each eligible collection
is the old set extended with the skeleton-created keys. Collections whose
content blob is absent or whose primary key cannot be resolved are untouched. -/
def pksAfterApply (tpl : Template) (st : TargetState) : String → List Val :=
  fun name =>
    match tpl.content name with
    | none => st.pks name
    | some data =>
      match getPrimaryKey (getCollectionPrimaryKeys (tpl.fieldsBlob.getD [])) name with
      | .error _ => st.pks name
      | .ok primaryKeyField =>
        st.pks name ++
          (skeletonNewData data primaryKeyField (st.pks name)).map
            (fun entry => getFieldVal entry primaryKeyField)

/-- Modelled from the spec: the effect of one apply run on the target's
relations — `createRelation` adds each submitted relation, so the resulting
relation list is the old one extended with the relations the loader created. -/
def relationsAfterApply (tpl : Template) (st : TargetState) : List Relation :=
  st.existingRelations ++
    loadRelationsTrace (tpl.relationsBlob.getD []) (tpl.collectionsBlob.getD [])
      st.existingRelations

/-- The target state observed by a second apply run of the same template. -/
def stateAfterApply (tpl : Template) (st : TargetState) : TargetState :=
  { st with
    pks := pksAfterApply tpl st
    existingRelations := relationsAfterApply tpl st }

/-! ## Helper lemmas -/

theorem filter_self_idem (p : α → Bool) (l : List α) :
    (l.filter p).filter p = l.filter p := by
  induction l with
  | nil => rfl
  | cons x xs ih =>
    by_cases h : p x <;> simp [List.filter_cons, h, ih]

theorem chunkArrayGo_flatten {n : Nat} (hn : 0 < n) :
    ∀ (fuel : Nat) (l : List α), l.length ≤ fuel →
      (chunkArrayGo n fuel l).flatten = l := by
  intro fuel
  induction fuel with
  | zero =>
    intro l hl
    rw [List.length_eq_zero.mp (Nat.le_zero.mp hl)]
    rfl
  | succ fuel ih =>
    intro l hl
    cases l with
    | nil => rfl
    | cons x xs =>
      rw [chunkArrayGo, List.flatten_cons, ih ((x :: xs).drop n) ?_,
        List.take_append_drop]
      simp only [List.length_drop, List.length_cons] at hl ⊢
      omega

theorem chunkArray_flatten {n : Nat} (hn : 0 < n) (l : List α) :
    (chunkArray l n).flatten = l := by
  rw [chunkArray, if_neg (Nat.pos_iff_ne_zero.mp hn)]
  exact chunkArrayGo_flatten hn l.length l (le_refl _)

theorem mem_chunkArrayGo_length_le {n : Nat} :
    ∀ {fuel : Nat} {l b : List α}, b ∈ chunkArrayGo n fuel l → b.length ≤ n := by
  intro fuel
  induction fuel with
  | zero =>
    intro l b hb
    simp [chunkArrayGo] at hb
  | succ fuel ih =>
    intro l b hb
    cases l with
    | nil => simp [chunkArrayGo] at hb
    | cons x xs =>
      rcases List.mem_cons.mp hb with h | h
      · subst h
        exact List.length_take_le n (x :: xs)
      · exact ih h

theorem mem_chunkArray_length_le {n : Nat} {l : List α} {b : List α}
    (hb : b ∈ chunkArray l n) : b.length ≤ n := by
  rw [chunkArray] at hb
  split at hb
  · simp at hb
  · exact mem_chunkArrayGo_length_le hb

theorem mem_of_mem_chunkArray {n : Nat} (hn : 0 < n) {l b : List α} {x : α}
    (hb : b ∈ chunkArray l n) (hx : x ∈ b) : x ∈ l := by
  rw [← chunkArray_flatten hn l]
  exact List.mem_flatten.mpr ⟨b, hb, hx⟩

theorem cleanRecord_lookup_audit (r : Record) (k : String)
    (hk : k = "user_created" ∨ k = "user_updated") :
    (cleanRecord r).lookup k = none := by
  induction r with
  | nil => rfl
  | cons kv rest ih =>
    cases kv with
    | mk a b =>
      simp only [cleanRecord, List.filter_cons] at ih ⊢
      split
      · rename_i hp
        simp only [Bool.and_eq_true, bne_iff_ne] at hp
        have hka : k ≠ a := by
          rcases hk with h | h <;> subst h
          · exact fun he => hp.1 he.symm
          · exact fun he => hp.2 he.symm
        simp [List.lookup, beq_eq_false_iff_ne.mpr hka, ih]
      · exact ih

theorem cleanRecord_lookup_other (r : Record) (k : String)
    (h1 : k ≠ "user_created") (h2 : k ≠ "user_updated") :
    (cleanRecord r).lookup k = r.lookup k := by
  induction r with
  | nil => rfl
  | cons kv rest ih =>
    cases kv with
    | mk a b =>
      simp only [cleanRecord, List.filter_cons] at ih ⊢
      by_cases ha : k = a
      · subst ha
        have hp : (k != "user_created" && k != "user_updated") = true := by
          simp [bne_iff_ne, h1, h2]
        simp [hp, List.lookup]
      · split
        · simp [List.lookup, beq_eq_false_iff_ne.mpr ha, ih]
        · rw [ih]
          simp [List.lookup, beq_eq_false_iff_ne.mpr ha]

/-! ## Claim C9 -/

/-- C9: the collections extractor and the content extractor exclude every
`'_extensions'`-group collection unconditionally — the result is the same
whether `excludeExtensionCollections` is true or false (absent ≡ false under
JavaScript truthiness), because the option-gated filter repeats the predicate
already applied. -/
theorem C9_extension_filter_unconditional (response : List Collection) (b : Bool) :
    extractCollectionsFilter response b = extractCollectionsFilter response false ∧
    getCollectionsNames response b = getCollectionsNames response false ∧
    ∀ c ∈ extractCollectionsFilter response b, c.meta.group ≠ some "_extensions" := by
  refine ⟨?_, ?_, ?_⟩
  · cases b <;> simp [extractCollectionsFilter, filter_self_idem]
  · cases b <;> simp [getCollectionsNames, filter_self_idem]
  · intro c hc
    have hmem : c ∈ (response.filter
        (fun c => !c.collection.startsWith "directus_")).filter
        (fun c => c.meta.group != some "_extensions") := by
      cases b <;>
        simpa [extractCollectionsFilter, filter_self_idem] using hc
    have := (List.mem_filter.mp hmem).2
    simpa [bne_iff_ne] using this

/-- Concrete instantiation of `C9_extension_filter_unconditional`: an
extension-group collection is dropped for both option values, a plain
collection survives, and the surviving collection's group is not
`'_extensions'`. -/
theorem C9_extension_filter_unconditional_witness :
    extractCollectionsFilter
        [⟨"articles", some (), ⟨none, false⟩⟩,
         ⟨"ext_owned", some (), ⟨some "_extensions", false⟩⟩] true =
      extractCollectionsFilter
        [⟨"articles", some (), ⟨none, false⟩⟩,
         ⟨"ext_owned", some (), ⟨some "_extensions", false⟩⟩] false ∧
    (⟨"articles", some (), ⟨none, false⟩⟩ : Collection).meta.group ≠
      some "_extensions" :=
  ⟨(C9_extension_filter_unconditional
      [⟨"articles", some (), ⟨none, false⟩⟩,
       ⟨"ext_owned", some (), ⟨some "_extensions", false⟩⟩] true).1,
   (C9_extension_filter_unconditional
      [⟨"articles", some (), ⟨none, false⟩⟩,
       ⟨"ext_owned", some (), ⟨some "_extensions", false⟩⟩] true).2.2
     ⟨"articles", some (), ⟨none, false⟩⟩ (by decide)⟩

/-! ## Claim C10 -/

/-- C10: when `API_AUTH_TOKEN` is unset, empty or whitespace-only, the
middleware passes every request through; when a non-blank token `t` is
configured, a request passes if and only if the provided token (the
`Authorization` header with an optional `Bearer ` prefix stripped, else the
`X-API-Key` header) equals `t`; a missing (JavaScript-falsy) provided token
yields 401 and a mismatched one 403. -/
theorem C10_auth_middleware (tok : Option String) (req : AuthRequest) :
    (authDisabled tok = true → authMiddleware tok req = .passed) ∧
    (∀ t, tok = some t → authDisabled tok = false →
      (authMiddleware tok req = .passed ↔ providedToken req = some t) ∧
      (authMiddleware tok req = .unauthorized401 ↔
        (providedToken req = none ∨ providedToken req = some "")) ∧
      (authMiddleware tok req = .forbidden403 ↔
        ∃ p, providedToken req = some p ∧ p ≠ "" ∧ p ≠ t)) := by
  constructor
  · intro hd
    simp [authMiddleware, hd]
  · intro t ht hd
    subst ht
    have ht0 : t ≠ "" := by
      intro h
      subst h
      exact absurd hd (by decide)
    cases hp : providedToken req with
    | none =>
      refine ⟨?_, ?_, ?_⟩ <;> simp [authMiddleware, hd, hp]
    | some p =>
      by_cases hpe : p = ""
      · subst hpe
        refine ⟨?_, ?_, ?_⟩ <;>
          simp [authMiddleware, hd, hp, ht0, Ne.symm ht0]
      · by_cases hpt : p = t
        · subst hpt
          refine ⟨?_, ?_, ?_⟩ <;> simp [authMiddleware, hd, hp, hpe]
        · refine ⟨?_, ?_, ?_⟩ <;>
            simp [authMiddleware, hd, hp, hpe, hpt, Ne.symm hpt]

/-- Concrete instantiation of `C10_auth_middleware`: with no configured
token every request passes; with token `"s3cret"`, a bare `Authorization`
token passes, a `Bearer`-prefixed one passes, an `X-API-Key` one passes, a
missing credential is a 401 and a wrong one a 403. -/
theorem C10_auth_middleware_witness :
    authMiddleware none ⟨none, none⟩ = .passed ∧
    (authMiddleware (some "s3cret") ⟨some "Bearer s3cret", none⟩ = .passed ↔
      providedToken ⟨some "Bearer s3cret", none⟩ = some "s3cret") ∧
    (authMiddleware (some "s3cret") ⟨none, none⟩ = .unauthorized401 ↔
      (providedToken (⟨none, none⟩ : AuthRequest) = none ∨
        providedToken (⟨none, none⟩ : AuthRequest) = some "")) ∧
    (authMiddleware (some "s3cret") ⟨none, some "wrong"⟩ = .forbidden403 ↔
      ∃ p, providedToken (⟨none, some "wrong"⟩ : AuthRequest) = some p ∧
        p ≠ "" ∧ p ≠ "s3cret") :=
  ⟨(C10_auth_middleware none ⟨none, none⟩).1 (by decide),
   ((C10_auth_middleware (some "s3cret") ⟨some "Bearer s3cret", none⟩).2
      "s3cret" rfl (by decide)).1,
   ((C10_auth_middleware (some "s3cret") ⟨none, none⟩).2
      "s3cret" rfl (by decide)).2.1,
   ((C10_auth_middleware (some "s3cret") ⟨none, some "wrong"⟩).2
      "s3cret" rfl (by decide)).2.2⟩

/-! ## Claim C6 -/

/-- C6: every record submitted by the full phase (`updateItemsBatch`) and by
the singleton phase (`updateSingleton`) has the keys `user_created` and
`user_updated` absent, and every other key of the corresponding source
record present with its original value. -/
theorem C6_audit_stripping (data : List Record) (single : Record)
    (nameF nameS : String) :
    (∀ req ∈ runFullCollection (some data) nameF, ∀ rec ∈ req.payload,
      rec.lookup "user_created" = none ∧ rec.lookup "user_updated" = none ∧
      ∃ src ∈ data, ∀ k, k ≠ "user_created" → k ≠ "user_updated" →
        rec.lookup k = src.lookup k) ∧
    (∀ req ∈ runSingletonCollection (some single) nameS, ∀ rec ∈ req.payload,
      rec.lookup "user_created" = none ∧ rec.lookup "user_updated" = none ∧
      ∀ k, k ≠ "user_created" → k ≠ "user_updated" →
        rec.lookup k = single.lookup k) := by
  constructor
  · intro req hreq rec hrec
    simp only [runFullCollection, List.mem_map] at hreq
    obtain ⟨cleanedBatch, ⟨batch, hbatch, hcbeq⟩, hreqeq⟩ := hreq
    subst hreqeq
    subst hcbeq
    simp only [List.mem_map] at hrec
    obtain ⟨src, hsrc, hreceq⟩ := hrec
    subst hreceq
    refine ⟨cleanRecord_lookup_audit src _ (Or.inl rfl),
      cleanRecord_lookup_audit src _ (Or.inr rfl),
      src, mem_of_mem_chunkArray (by decide) hbatch hsrc, ?_⟩
    intro k hk1 hk2
    exact cleanRecord_lookup_other src k hk1 hk2
  · intro req hreq rec hrec
    simp only [runSingletonCollection, List.mem_singleton] at hreq
    subst hreq
    simp only [List.mem_singleton] at hrec
    subst hrec
    exact ⟨cleanRecord_lookup_audit single _ (Or.inl rfl),
      cleanRecord_lookup_audit single _ (Or.inr rfl),
      fun k hk1 hk2 => cleanRecord_lookup_other single k hk1 hk2⟩

/-- Concrete instantiation of `C6_audit_stripping`: the one full-phase batch
for a record carrying `user_created` and `user_updated` is submitted without
the audit keys, and the singleton payload likewise keeps `title` at its
original value while dropping the audit keys. -/
theorem C6_audit_stripping_witness :
    (([("id", Val.vInt 1)] : Record).lookup "user_created" = none ∧
      ([("id", Val.vInt 1)] : Record).lookup "user_updated" = none ∧
      ∃ src ∈ [[("id", Val.vInt 1), ("user_created", Val.vStr "admin"),
          ("user_updated", Val.vStr "admin")]],
        ∀ k, k ≠ "user_created" → k ≠ "user_updated" →
          ([("id", Val.vInt 1)] : Record).lookup k = List.lookup k src) ∧
    (([("title", Val.vStr "home")] : Record).lookup "user_created" = none ∧
      ([("title", Val.vStr "home")] : Record).lookup "user_updated" = none ∧
      ∀ k, k ≠ "user_created" → k ≠ "user_updated" →
        ([("title", Val.vStr "home")] : Record).lookup k =
          List.lookup k
            [("user_created", Val.vStr "admin"), ("title", Val.vStr "home")]) :=
  ⟨(C6_audit_stripping
        [[("id", Val.vInt 1), ("user_created", Val.vStr "admin"),
          ("user_updated", Val.vStr "admin")]]
        [("user_created", Val.vStr "admin"), ("title", Val.vStr "home")]
        "articles" "globals").1
      ⟨.full, "articles", [[("id", Val.vInt 1)]]⟩ (by decide)
      [("id", Val.vInt 1)] (by decide),
    (C6_audit_stripping
        [[("id", Val.vInt 1), ("user_created", Val.vStr "admin"),
          ("user_updated", Val.vStr "admin")]]
        [("user_created", Val.vStr "admin"), ("title", Val.vStr "home")]
        "articles" "globals").2
      ⟨.singletonPhase, "globals", [[("title", Val.vStr "home")]]⟩ (by decide)
      [("title", Val.vStr "home")] (by decide)⟩

theorem getCollectionPrimaryKeys_lookup_none (name : String) :
    ∀ (fields : List TField) (acc : List (String × String)),
    (∀ f ∈ fields, f.collection = name →
      (f.schema.map FieldSchema.is_primary_key).getD false = false) →
    acc.lookup name = none →
    (fields.foldl (fun m f =>
      match f.schema with
      | some s => if s.is_primary_key then (f.collection, f.fieldName) :: m else m
      | none => m) acc).lookup name = none := by
  intro fields
  induction fields with
  | nil =>
    intro acc _ hacc
    exact hacc
  | cons f fs ih =>
    intro acc hf hacc
    rw [List.foldl_cons]
    apply ih _ (fun g hg hgc => hf g (List.mem_cons_of_mem f hg) hgc)
    cases hs : f.schema with
    | none => simpa [hs] using hacc
    | some s =>
      by_cases hpk : s.is_primary_key = true
      · have hfc : f.collection ≠ name := by
          intro he
          have h2 := hf f (List.mem_cons_self f fs) he
          rw [hs] at h2
          simp [hpk] at h2
        simp [hs, hpk, List.lookup, beq_eq_false_iff_ne.mpr (Ne.symm hfc), hacc]
      · simp [hs, hpk, hacc]

/-! ## Claim C7 -/

/-- C7: when no field of the extracted fields blob is marked
`schema.is_primary_key` for a collection, resolving that collection's primary
key yields a captured error with the `fatal` flag set and a message naming
the collection, and the skeleton-phase unit for that collection — its content
blob being present — aborts with that same fatal error instead of issuing
any create request. -/
theorem C7_missing_primary_key_fatal (fields : List TField) (name : String)
    (data : List Record) (existing : List Val)
    (hf : ∀ f ∈ fields, f.collection = name →
      (f.schema.map FieldSchema.is_primary_key).getD false = false) :
    getPrimaryKey (getCollectionPrimaryKeys fields) name =
      .error ⟨"Collection " ++ name ++ " not found in collections map", true⟩ ∧
    runSkeletonCollection (some data) (getCollectionPrimaryKeys fields)
        existing name =
      .error ⟨"Collection " ++ name ++ " not found in collections map", true⟩ := by
  have hl : (getCollectionPrimaryKeys fields).lookup name = none :=
    getCollectionPrimaryKeys_lookup_none name fields [] hf rfl
  have hpk : getPrimaryKey (getCollectionPrimaryKeys fields) name =
      .error ⟨"Collection " ++ name ++ " not found in collections map", true⟩ := by
    rw [getPrimaryKey, hl]
  exact ⟨hpk, by rw [runSkeletonCollection, hpk]⟩

/-- Concrete instantiation of `C7_missing_primary_key_fatal`: a fields blob
holding only a non-primary-key field and a schema-less field for `articles`
makes the skeleton unit for `articles` fail fatally with the message naming
the collection. -/
theorem C7_missing_primary_key_fatal_witness :
    getPrimaryKey
        (getCollectionPrimaryKeys
          [⟨"articles", "title", some ⟨false⟩⟩, ⟨"articles", "body", none⟩])
        "articles" =
      .error ⟨"Collection articles not found in collections map", true⟩ ∧
    runSkeletonCollection (some [[("id", Val.vInt 1)]])
        (getCollectionPrimaryKeys
          [⟨"articles", "title", some ⟨false⟩⟩, ⟨"articles", "body", none⟩])
        [] "articles" =
      .error ⟨"Collection articles not found in collections map", true⟩ :=
  C7_missing_primary_key_fatal
    [⟨"articles", "title", some ⟨false⟩⟩, ⟨"articles", "body", none⟩]
    "articles" [[("id", Val.vInt 1)]] [] (by decide)

/-! ## Claim C2 -/

/-- C2: the eligible collections are exactly those with a non-`directus_`
name, non-null schema, non-singleton meta and a name present on the target;
for such a collection with a present content blob and resolved primary-key
field, the skeleton phase issues create requests whose combined payload is
exactly the source records with a primary-key value absent from the target,
each projected to its primary-key field only, in batches of at most
`BATCH_SIZE = 50`; an absent blob is skipped without error, and an empty
difference issues no request. -/
theorem C2_skeleton_phase (collections : List Collection) (target : List String)
    (data : List Record) (pkMap : List (String × String)) (existing : List Val)
    (name primaryKeyField : String)
    (hpk : getPrimaryKey pkMap name = .ok primaryKeyField) :
    (∀ c, c ∈ userCollections collections target ↔
      c ∈ collections ∧ ¬c.collection.startsWith "directus_" ∧
      c.schema.isSome = true ∧ c.meta.singleton = false ∧ c.collection ∈ target) ∧
    runSkeletonCollection none pkMap existing name = .ok [] ∧
    ∃ reqs, runSkeletonCollection (some data) pkMap existing name = .ok reqs ∧
      (reqs.map Request.payload).flatten =
        (skeletonNewData data primaryKeyField existing).map
          (pkProjection primaryKeyField) ∧
      (∀ req ∈ reqs, req.phase = .skeleton ∧ req.collection = name ∧
        req.payload.length ≤ BATCH_SIZE) ∧
      (skeletonNewData data primaryKeyField existing = [] → reqs = []) := by
  refine ⟨?_, rfl, ?_⟩
  · intro c
    simp only [userCollections, List.mem_filter, Bool.not_eq_true']
    constructor
    · rintro ⟨⟨⟨⟨hc, h1⟩, h2⟩, h3⟩, h4⟩
      refine ⟨hc, by simpa using h1, h2, by simpa using h3, by simpa using h4⟩
    · rintro ⟨hc, h1, h2, h3, h4⟩
      exact ⟨⟨⟨⟨hc, by simpa using h1⟩, h2⟩, by simpa using h3⟩, by simpa using h4⟩
  · rw [runSkeletonCollection, hpk]
    by_cases hz : (skeletonNewData data primaryKeyField existing).length = 0
    · refine ⟨[], by simp [hz], by simp [List.length_eq_zero.mp hz], by simp, fun _ => rfl⟩
    · refine ⟨((chunkArray (skeletonNewData data primaryKeyField existing)
          BATCH_SIZE).map
            (fun batch => batch.map (pkProjection primaryKeyField))).map
          (fun b => ⟨.skeleton, name, b⟩), by simp [hz], ?_, ?_, ?_⟩
      · rw [List.map_map]
        have : (Request.payload ∘ fun b => Request.mk .skeleton name b) = id := rfl
        rw [this, List.map_id, ← List.map_flatten,
          chunkArray_flatten (by decide) (skeletonNewData data primaryKeyField existing)]
      · intro req hreq
        simp only [List.map_map, List.mem_map, Function.comp] at hreq
        obtain ⟨batch, hbatch, hreqeq⟩ := hreq
        subst hreqeq
        refine ⟨rfl, rfl, ?_⟩
        simpa using mem_chunkArray_length_le hbatch
      · intro he
        rw [he] at hz
        simp at hz

/-- Concrete instantiation of `C2_skeleton_phase`: with existing key `1` on
the target and source records keyed `1` and `2`, the skeleton phase for
`articles` creates exactly the projected record with key `2` in a single
batch, and a singleton or `directus_`-prefixed collection is not eligible. -/
theorem C2_skeleton_phase_witness :
    (⟨"articles", some (), ⟨none, false⟩⟩ : Collection) ∈
      userCollections
        [⟨"articles", some (), ⟨none, false⟩⟩,
         ⟨"directus_users", some (), ⟨none, false⟩⟩,
         ⟨"globals", some (), ⟨none, true⟩⟩]
        ["articles", "globals"] ∧
    runSkeletonCollection none [("articles", "id")] [Val.vInt 1] "articles" =
      .ok [] ∧
    ∃ reqs,
      runSkeletonCollection
          (some [[("id", Val.vInt 1), ("author", Val.vStr "a")],
                 [("id", Val.vInt 2), ("author", Val.vStr "b")]])
          [("articles", "id")] [Val.vInt 1] "articles" = .ok reqs ∧
      (reqs.map Request.payload).flatten = [[("id", Val.vInt 2)]] := by
  have h := C2_skeleton_phase
    [⟨"articles", some (), ⟨none, false⟩⟩,
     ⟨"directus_users", some (), ⟨none, false⟩⟩,
     ⟨"globals", some (), ⟨none, true⟩⟩]
    ["articles", "globals"]
    [[("id", Val.vInt 1), ("author", Val.vStr "a")],
     [("id", Val.vInt 2), ("author", Val.vStr "b")]]
    [("articles", "id")] [Val.vInt 1] "articles" "id" rfl
  refine ⟨(h.1 ⟨"articles", some (), ⟨none, false⟩⟩).mpr
      ⟨by decide, by decide, by decide, by decide, by decide⟩,
    h.2.1, ?_⟩
  obtain ⟨reqs, hrun, hflat, _, _⟩ := h.2.2
  exact ⟨reqs, hrun, by rw [hflat]; decide⟩

theorem relationKey_clearMetaId (r : Relation) :
    relationKey (clearMetaId r) = relationKey r := rfl

theorem loadRelationsTrace_eq (allRelations : List Relation)
    (collections : List Collection) (existingRelations : List Relation) :
    loadRelationsTrace allRelations collections existingRelations =
      ((allRelations.filter (fun r =>
          !((extensionCollectionNames collections).contains r.collection) &&
          !((extensionCollectionNames collections).contains
              r.related_collection))).filter
        (fun r =>
          !((existingRelations.map relationKey).contains (relationKey r)))).map
        clearMetaId := by
  rw [loadRelationsTrace]
  split
  · rfl
  · rename_i hlen
    have : allRelations.filter (fun r =>
        !((extensionCollectionNames collections).contains r.collection) &&
        !((extensionCollectionNames collections).contains
            r.related_collection)) = [] := by
      rcases List.eq_nil_or_concat (allRelations.filter _) with h | ⟨_, _, h⟩
      · exact h
      · exfalso
        apply hlen
        rw [h]
        simp
    rw [this]
    rfl

/-! ## Claim C4 -/

/-- C4: `loadRelations` submits to `createRelation`, in the order of the
filtered list, exactly the blob relations that involve no
`'_extensions'`-group collection and whose identity key
`collection:field:related_collection` matches no existing relation on the
target; every submitted relation has `meta.id` cleared, and no submitted
relation's identity key (which ignores `meta.id`) occurs among the existing
relations — so a relation differing only in `meta.id` is never recreated. -/
theorem C4_relation_loader (allRelations : List Relation)
    (collections : List Collection) (existingRelations : List Relation) :
    loadRelationsTrace allRelations collections existingRelations =
      ((allRelations.filter (fun r =>
          !((extensionCollectionNames collections).contains r.collection) &&
          !((extensionCollectionNames collections).contains
              r.related_collection))).filter
        (fun r =>
          !((existingRelations.map relationKey).contains (relationKey r)))).map
        clearMetaId ∧
    (∀ r ∈ loadRelationsTrace allRelations collections existingRelations,
      r.meta.id = none ∧ ¬∃ e ∈ existingRelations, relationKey e = relationKey r) := by
  have htrace := loadRelationsTrace_eq allRelations collections existingRelations
  refine ⟨htrace, ?_⟩
  intro r hr
  rw [htrace] at hr
  obtain ⟨r0, hr0, hreq⟩ := List.mem_map.mp hr
  subst hreq
  have hfil := List.mem_filter.mp hr0
  refine ⟨rfl, ?_⟩
  rintro ⟨e, he, hkey⟩
  have hnc := hfil.2
  rw [relationKey_clearMetaId] at hkey
  simp only [Bool.not_eq_true'] at hnc
  have hmem : relationKey r0 ∈ existingRelations.map relationKey :=
    hkey ▸ List.mem_map_of_mem relationKey he
  have hc : (existingRelations.map relationKey).contains (relationKey r0) = true := by
    simpa using hmem
  rw [hnc] at hc
  exact Bool.false_ne_true hc

/-- Concrete instantiation of `C4_relation_loader`: a blob relation whose
identity triple already exists on the target under a different `meta.id` is
skipped, a relation touching an `'_extensions'`-group collection is skipped,
and the genuinely new relation is created with `meta.id` cleared. -/
theorem C4_relation_loader_witness :
    loadRelationsTrace
        [⟨"articles", "author_id", "authors", ⟨some (Val.vInt 7)⟩⟩,
         ⟨"articles", "cover", "files", ⟨some (Val.vInt 8)⟩⟩,
         ⟨"ext_tbl", "owner", "authors", ⟨none⟩⟩]
        [⟨"ext_tbl", some (), ⟨some "_extensions", false⟩⟩]
        [⟨"articles", "author_id", "authors", ⟨some (Val.vInt 99)⟩⟩] =
      [⟨"articles", "cover", "files", ⟨none⟩⟩] ∧
    ¬∃ e ∈ [(⟨"articles", "author_id", "authors", ⟨some (Val.vInt 99)⟩⟩ : Relation)],
      relationKey e = relationKey ⟨"articles", "cover", "files", ⟨none⟩⟩ := by
  have h := C4_relation_loader
    [⟨"articles", "author_id", "authors", ⟨some (Val.vInt 7)⟩⟩,
     ⟨"articles", "cover", "files", ⟨some (Val.vInt 8)⟩⟩,
     ⟨"ext_tbl", "owner", "authors", ⟨none⟩⟩]
    [⟨"ext_tbl", some (), ⟨some "_extensions", false⟩⟩]
    [⟨"articles", "author_id", "authors", ⟨some (Val.vInt 99)⟩⟩]
  have htr : loadRelationsTrace
      [⟨"articles", "author_id", "authors", ⟨some (Val.vInt 7)⟩⟩,
       ⟨"articles", "cover", "files", ⟨some (Val.vInt 8)⟩⟩,
       ⟨"ext_tbl", "owner", "authors", ⟨none⟩⟩]
      [⟨"ext_tbl", some (), ⟨some "_extensions", false⟩⟩]
      [⟨"articles", "author_id", "authors", ⟨some (Val.vInt 99)⟩⟩] =
      [⟨"articles", "cover", "files", ⟨none⟩⟩] := by
    rw [h.1]
    decide
  refine ⟨htr, (h.2 ⟨"articles", "cover", "files", ⟨none⟩⟩ ?_).2⟩
  rw [htr]
  decide

/-! ## Claim C8 -/

/-- C8: when any of the collections, fields or relations blobs is missing,
`apply` aborts with the user-visible older-template error before any load
step runs — the error result carries no load step, so no write is issued to
the target — and when all three blobs are present the flag-gated load steps
proceed. -/
theorem C8_template_compat (tpl : Template) (flags : ApplyFlags) :
    ((tpl.collectionsBlob = none ∨ tpl.fieldsBlob = none ∨
        tpl.relationsBlob = none) →
      applyRun tpl flags = .error OLD_TEMPLATE_ERROR) ∧
    (tpl.collectionsBlob.isSome = true → tpl.fieldsBlob.isSome = true →
      tpl.relationsBlob.isSome = true →
      applyRun tpl flags = .ok (applySteps flags)) := by
  constructor
  · intro h
    have hc : checkTemplate tpl = false := by
      rcases h with h | h | h <;> simp [checkTemplate, h]
    simp [applyRun, hc]
  · intro h1 h2 h3
    have hc : checkTemplate tpl = true := by
      simp [checkTemplate, h1, h2, h3]
    simp [applyRun, hc]

/-- Concrete instantiation of `C8_template_compat`: a template missing its
fields blob is rejected with the older-template error for a full flag set,
and the same template with the blob present proceeds to the load steps. -/
theorem C8_template_compat_witness :
    applyRun
        ⟨some [], none, some [], fun _ => none, fun _ => none⟩
        ⟨true, true, true, true, true, true, true, true, true⟩ =
      .error OLD_TEMPLATE_ERROR ∧
    applyRun
        ⟨some [], some [], some [], fun _ => none, fun _ => none⟩
        ⟨true, true, true, true, true, true, true, true, true⟩ =
      .ok (applySteps ⟨true, true, true, true, true, true, true, true, true⟩) :=
  ⟨(C8_template_compat
      ⟨some [], none, some [], fun _ => none, fun _ => none⟩
      ⟨true, true, true, true, true, true, true, true, true⟩).1
      (Or.inr (Or.inl rfl)),
   (C8_template_compat
      ⟨some [], some [], some [], fun _ => none, fun _ => none⟩
      ⟨true, true, true, true, true, true, true, true, true⟩).2
      rfl rfl rfl⟩

theorem runSkeletonCollection_phase {c : Option (List Record)}
    {pk : List (String × String)} {ex : List Val} {n : String} {reqs : List Request}
    (h : runSkeletonCollection c pk ex n = .ok reqs) :
    ∀ r ∈ reqs, r.phase = .skeleton := by
  cases c with
  | none =>
    simp only [runSkeletonCollection, Except.ok.injEq] at h
    subst h
    intro r hr
    simp at hr
  | some data =>
    rw [runSkeletonCollection] at h
    split at h
    · exact absurd h (by simp)
    · dsimp only at h
      split at h
      · simp only [Except.ok.injEq] at h
        subst h
        intro r hr
        simp at hr
      · simp only [Except.ok.injEq] at h
        subst h
        intro r hr
        simp only [List.map_map, List.mem_map] at hr
        obtain ⟨_, _, hreq⟩ := hr
        subst hreq
        rfl

theorem seqCollect_ok_forall {f : α → Except ErrorCapture (List β)} {P : β → Prop}
    (hf : ∀ x ys, f x = .ok ys → ∀ y ∈ ys, P y) :
    ∀ {l : List α} {out : List β}, seqCollect f l = .ok out → ∀ y ∈ out, P y := by
  intro l
  induction l with
  | nil =>
    intro out h y hy
    simp only [seqCollect, Except.ok.injEq] at h
    subst h
    simp at hy
  | cons x xs ih =>
    intro out h y hy
    rw [seqCollect] at h
    cases hx : f x with
    | error e => rw [hx] at h; exact absurd h (by simp)
    | ok ys =>
      rw [hx] at h
      cases hxs : seqCollect f xs with
      | error e => rw [hxs] at h; exact absurd h (by simp)
      | ok rest =>
        rw [hxs] at h
        simp only [Except.ok.injEq] at h
        subst h
        rcases List.mem_append.mp hy with hy | hy
        · exact hf x ys hx y hy
        · exact ih hxs y hy

theorem loadSkeletonRecordsTrace_phase {tpl : Template} {st : TargetState}
    {skel : List Request} (h : loadSkeletonRecordsTrace tpl st = .ok skel) :
    ∀ r ∈ skel, r.phase = .skeleton :=
  seqCollect_ok_forall (fun _ _ys hys => runSkeletonCollection_phase hys) h

theorem loadFullDataTrace_phase (tpl : Template) (st : TargetState) :
    ∀ r ∈ loadFullDataTrace tpl st, r.phase = .full := by
  intro r hr
  simp only [loadFullDataTrace, List.mem_flatten, List.mem_map] at hr
  obtain ⟨l, ⟨c, _, hleq⟩, hrl⟩ := hr
  subst hleq
  cases hc : tpl.content c.collection with
  | none => simp [runFullCollection, hc] at hrl
  | some data =>
    simp only [runFullCollection, hc, List.mem_map] at hrl
    obtain ⟨_, _, hreq⟩ := hrl
    subst hreq
    rfl

theorem loadSingletonsTrace_phase (tpl : Template) (st : TargetState) :
    ∀ r ∈ loadSingletonsTrace tpl st, r.phase = .singletonPhase := by
  intro r hr
  simp only [loadSingletonsTrace, List.mem_flatten, List.mem_map] at hr
  obtain ⟨l, ⟨c, _, hleq⟩, hrl⟩ := hr
  subst hleq
  cases hc : tpl.singletonContent c.collection with
  | none => simp [runSingletonCollection, hc] at hrl
  | some data =>
    simp only [runSingletonCollection, hc, List.mem_singleton] at hrl
    subst hrl
    rfl

/-- Rank of an index in the concatenation `s ++ f ++ g` by region. -/
def regionRank (sLen fLen k : Nat) : Nat :=
  if k < sLen then 0 else if k < sLen + fLen then 1 else 2

theorem append3_get_rank {s f g : List Request}
    (hs : ∀ r ∈ s, phaseRank r.phase = 0)
    (hf : ∀ r ∈ f, phaseRank r.phase = 1)
    (hg : ∀ r ∈ g, phaseRank r.phase = 2)
    (k : Nat) (hk : k < (s ++ f ++ g).length) :
    phaseRank ((s ++ f ++ g).get ⟨k, hk⟩).phase =
      regionRank s.length f.length k := by
  rw [regionRank]
  have hk' := hk
  simp only [List.length_append] at hk'
  have hget : (s ++ f ++ g).get ⟨k, hk⟩ = (s ++ f ++ g)[k] := rfl
  rw [hget]
  by_cases h1 : k < s.length
  · rw [if_pos h1]
    have h1' : k < (s ++ f).length := by
      simp only [List.length_append]
      omega
    rw [List.getElem_append_left h1', List.getElem_append_left h1]
    exact hs _ (List.getElem_mem h1)
  · rw [if_neg h1]
    by_cases h2 : k < s.length + f.length
    · rw [if_pos h2]
      have h1' : s.length ≤ k := by omega
      have h2' : k < (s ++ f).length := by
        simp only [List.length_append]
        omega
      have hkf : k - s.length < f.length := by omega
      rw [List.getElem_append_left h2', List.getElem_append_right h1']
      exact hf _ (List.getElem_mem hkf)
    · rw [if_neg h2]
      have h2' : (s ++ f).length ≤ k := by
        simp only [List.length_append]
        omega
      have hkg : k - (s ++ f).length < g.length := by
        simp only [List.length_append]
        omega
      rw [List.getElem_append_right h2']
      exact hg _ (List.getElem_mem hkg)

/-! ## Claim C1 -/

/-- C1: in the `loadData` trace, phases are separated by a strict barrier —
whenever request `i` belongs to an earlier phase than request `j` (skeleton
before full before singleton), request `i` occurs strictly before request
`j`; in particular no full-phase update precedes any skeleton-phase create,
and no singleton update precedes any full-phase update; a fatal skeleton
error aborts the run before any later-phase request exists at all. -/
theorem C1_phase_barrier (tpl : Template) (st : TargetState)
    (trace : List Request) (h : loadDataTrace tpl st = .ok trace)
    (i j : Nat) (hi : i < trace.length) (hj : j < trace.length)
    (hrank : phaseRank (trace.get ⟨i, hi⟩).phase <
      phaseRank (trace.get ⟨j, hj⟩).phase) :
    i < j := by
  rw [loadDataTrace] at h
  cases hskel : loadSkeletonRecordsTrace tpl st with
  | error e => rw [hskel] at h; exact absurd h (by simp)
  | ok skel =>
    rw [hskel] at h
    simp only [Except.ok.injEq] at h
    subst h
    have hs0 : ∀ r ∈ skel, phaseRank r.phase = 0 := fun r hr => by
      rw [loadSkeletonRecordsTrace_phase hskel r hr]
      rfl
    have hf1 : ∀ r ∈ loadFullDataTrace tpl st, phaseRank r.phase = 1 := fun r hr => by
      rw [loadFullDataTrace_phase tpl st r hr]
      rfl
    have hg2 : ∀ r ∈ loadSingletonsTrace tpl st, phaseRank r.phase = 2 :=
      fun r hr => by
        rw [loadSingletonsTrace_phase tpl st r hr]
        rfl
    have hri := append3_get_rank hs0 hf1 hg2 i hi
    have hrj := append3_get_rank hs0 hf1 hg2 j hj
    rw [hri, hrj] at hrank
    rw [regionRank] at hrank
    rw [regionRank] at hrank
    by_contra hij
    split_ifs at hrank <;> omega

/-- Concrete instantiation of `C1_phase_barrier`: for a template with one
content collection and one singleton against an empty target, the trace is
the skeleton create, then the full update, then the singleton update, and
the barrier puts the skeleton request (index 0) strictly before the full
update (index 1). -/
theorem C1_phase_barrier_witness :
    loadDataTrace
        ⟨some [⟨"articles", some (), ⟨none, false⟩⟩,
               ⟨"globals", some (), ⟨none, true⟩⟩],
         some [⟨"articles", "id", some ⟨true⟩⟩],
         some [],
         fun n => if n = "articles" then some [[("id", Val.vInt 1)]] else none,
         fun n => if n = "globals" then some [("title", Val.vStr "t")] else none⟩
        ⟨["articles", "globals"], fun _ => [], []⟩ =
      .ok [⟨.skeleton, "articles", [[("id", Val.vInt 1)]]⟩,
           ⟨.full, "articles", [[("id", Val.vInt 1)]]⟩,
           ⟨.singletonPhase, "globals", [[("title", Val.vStr "t")]]⟩] ∧
    0 < 1 := by
  have htr : loadDataTrace
      ⟨some [⟨"articles", some (), ⟨none, false⟩⟩,
             ⟨"globals", some (), ⟨none, true⟩⟩],
       some [⟨"articles", "id", some ⟨true⟩⟩],
       some [],
       fun n => if n = "articles" then some [[("id", Val.vInt 1)]] else none,
       fun n => if n = "globals" then some [("title", Val.vStr "t")] else none⟩
      ⟨["articles", "globals"], fun _ => [], []⟩ =
      .ok [⟨.skeleton, "articles", [[("id", Val.vInt 1)]]⟩,
           ⟨.full, "articles", [[("id", Val.vInt 1)]]⟩,
           ⟨.singletonPhase, "globals", [[("title", Val.vStr "t")]]⟩] := rfl
  exact ⟨htr, C1_phase_barrier _ _ _ htr 0 1 (by decide) (by decide) (by decide)⟩

theorem getEPKLoop_spec (pages : Nat → List Record) (pk : String) (N : Nat)
    (hN : (pages N).length < PAGE_LIMIT) :
    ∀ (fuel page : Nat) (reqs : List Nat) (acc : List Val),
      page ≤ N → N < page + fuel →
      ∃ k, page ≤ k ∧ k ≤ N ∧
        getEPKLoop pages pk page fuel reqs acc =
          some (reqs ++ List.range' page (k + 1 - page),
            acc ++ ((List.range' page (k + 1 - page)).map
              (fun i => (pages i).map (fun item => getFieldVal item pk))).flatten) ∧
        (∀ i, page ≤ i → i < k → PAGE_LIMIT ≤ (pages i).length) ∧
        (pages k).length < PAGE_LIMIT := by
  intro fuel
  induction fuel with
  | zero =>
    intro page reqs acc hpN hNf
    omega
  | succ fuel ih =>
    intro page reqs acc hpN hNf
    by_cases hz : (pages page).length = 0
    · refine ⟨page, le_refl _, hpN, ?_, by omega, by rw [PAGE_LIMIT]; omega⟩
      rw [getEPKLoop, if_pos hz]
      have hpe : pages page = [] := List.length_eq_zero.mp hz
      have hr1 : page + 1 - page = 1 := by omega
      rw [hr1, List.range'_one]
      simp [hpe]
    · by_cases hshort : (pages page).length < PAGE_LIMIT
      · refine ⟨page, le_refl _, hpN, ?_, by omega, hshort⟩
        rw [getEPKLoop, if_neg hz, if_pos hshort]
        have hr1 : page + 1 - page = 1 := by omega
        rw [hr1, List.range'_one]
        simp
      · have hpage_ne : page ≠ N := by
          intro he
          rw [he] at hshort
          exact hshort hN
        have hp1N : page + 1 ≤ N := by omega
        obtain ⟨k, hk1, hk2, hloop, hmid, hkshort⟩ :=
          ih (page + 1) (reqs ++ [page])
            (acc ++ (pages page).map (fun item => getFieldVal item pk))
            hp1N (by omega)
        refine ⟨k, by omega, hk2, ?_, ?_, hkshort⟩
        · rw [getEPKLoop, if_neg hz, if_neg hshort, hloop]
          have hsplit : k + 1 - page = (k + 1 - (page + 1)) + 1 := by omega
          rw [hsplit, List.range'_succ]
          simp only [List.map_cons, List.flatten_cons, List.append_assoc,
            List.cons_append, List.nil_append]
        · intro i hi1 hi2
          rcases Nat.eq_or_lt_of_le hi1 with he | hlt
          · rw [← he]
            exact Nat.le_of_not_lt hshort
          · exact hmid i hlt hi2

/-! ## Claim C5 -/

/-- C5: `getExistingPrimaryKeys` requests consecutive pages starting at 1
(the embedding issues page `n + 1` only in the branch following page `n`'s
response, realising the sequential await), stops at the first page whose
response is shorter than the limit 1000 — every earlier requested page has
length at least 1000, so no request follows an empty page — terminates with
finite fuel whenever some page `N ≥ 1` is short, and returns the primary-key
values of all items received on the requested pages. -/
theorem C5_pagination (pages : Nat → List Record) (pk : String) (N : Nat)
    (h1 : 1 ≤ N) (hN : (pages N).length < PAGE_LIMIT) :
    ∃ k, 1 ≤ k ∧ k ≤ N ∧
      getExistingPrimaryKeys pages pk N =
        some (List.range' 1 k,
          ((List.range' 1 k).map
            (fun i => (pages i).map (fun item => getFieldVal item pk))).flatten) ∧
      (∀ i, 1 ≤ i → i < k → PAGE_LIMIT ≤ (pages i).length) ∧
      (pages k).length < PAGE_LIMIT ∧
      (∀ i ∈ List.range' 1 k, pages i = [] → i = k) := by
  obtain ⟨k, hk1, hk2, hloop, hmid, hkshort⟩ :=
    getEPKLoop_spec pages pk N hN N 1 [] [] h1 (by omega)
  refine ⟨k, hk1, hk2, ?_, hmid, hkshort, ?_⟩
  · rw [getExistingPrimaryKeys, hloop]
    have : k + 1 - 1 = k := by omega
    simp [this]
  · intro i hi hie
    have hib := List.mem_range'_1.mp hi
    by_contra hne
    have hlt : i < k := by omega
    have := hmid i hib.1 hlt
    rw [hie] at this
    simp [PAGE_LIMIT] at this

/-- Concrete instantiation of `C5_pagination`: against a target whose every
page is empty, the loop requests exactly page 1 and returns no keys. -/
theorem C5_pagination_witness :
    ∃ k, 1 ≤ k ∧ k ≤ 1 ∧
      getExistingPrimaryKeys (fun _ => []) "id" 1 =
        some (List.range' 1 k,
          ((List.range' 1 k).map
            (fun _i => (([] : List Record)).map
              (fun item => getFieldVal item "id"))).flatten) ∧
      (∀ i, 1 ≤ i → i < k → PAGE_LIMIT ≤ (([] : List Record)).length) ∧
      (([] : List Record)).length < PAGE_LIMIT ∧
      (∀ i ∈ List.range' 1 k, ([] : List Record) = [] → i = k) :=
  C5_pagination (fun _ => []) "id" 1 (by decide) (by decide)

/-! ## Claim C3 -/

/-- C3: apply is idempotent with respect to creations — after one complete
apply run (modelled by `stateAfterApply`: skeleton creations extend the
target's primary-key sets, relation creations extend its relations, nothing
is deleted), a second run of the same template computes an empty skeleton
set difference for every collection with a present content blob and resolved
primary key (hence issues zero create-items requests) and an empty relation
difference (zero create-relation requests). -/
theorem C3_apply_idempotent (tpl : Template) (st : TargetState)
    (name primaryKeyField : String) (data : List Record)
    (hdata : tpl.content name = some data)
    (hpk : getPrimaryKey (getCollectionPrimaryKeys (tpl.fieldsBlob.getD []))
        name = .ok primaryKeyField) :
    skeletonNewData data primaryKeyField ((stateAfterApply tpl st).pks name) = [] ∧
    runSkeletonCollection (some data)
        (getCollectionPrimaryKeys (tpl.fieldsBlob.getD []))
        ((stateAfterApply tpl st).pks name) name = .ok [] ∧
    loadRelationsTrace (tpl.relationsBlob.getD []) (tpl.collectionsBlob.getD [])
        (stateAfterApply tpl st).existingRelations = [] := by
  have hpks : (stateAfterApply tpl st).pks name =
      st.pks name ++ (skeletonNewData data primaryKeyField (st.pks name)).map
        (fun entry => getFieldVal entry primaryKeyField) := by
    simp [stateAfterApply, pksAfterApply, hdata, hpk]
  have hempty : skeletonNewData data primaryKeyField
      ((stateAfterApply tpl st).pks name) = [] := by
    rw [skeletonNewData, List.filter_eq_nil_iff]
    intro e he
    simp only [Bool.not_eq_true', Bool.not_eq_false]
    rw [hpks]
    have hmem : getFieldVal e primaryKeyField ∈
        st.pks name ++ (skeletonNewData data primaryKeyField (st.pks name)).map
          (fun entry => getFieldVal entry primaryKeyField) := by
      by_cases hin : getFieldVal e primaryKeyField ∈ st.pks name
      · exact List.mem_append_left _ hin
      · refine List.mem_append_right _ ?_
        have hsk : e ∈ skeletonNewData data primaryKeyField (st.pks name) := by
          rw [skeletonNewData, List.mem_filter]
          refine ⟨he, ?_⟩
          simp only [Bool.not_eq_true']
          simpa using hin
        exact List.mem_map_of_mem _ hsk
    simpa using hmem
  refine ⟨hempty, ?_, ?_⟩
  · rw [runSkeletonCollection, hpk]
    simp [hempty]
  · rw [loadRelationsTrace_eq]
    rw [List.filter_eq_nil_iff.mpr ?_, List.map_nil]
    intro r hr
    simp only [Bool.not_eq_true', Bool.not_eq_false]
    have hkeys : ((stateAfterApply tpl st).existingRelations).map relationKey =
        st.existingRelations.map relationKey ++
          (((tpl.relationsBlob.getD []).filter (fun r =>
            !((extensionCollectionNames (tpl.collectionsBlob.getD [])).contains
                r.collection) &&
            !((extensionCollectionNames (tpl.collectionsBlob.getD [])).contains
                r.related_collection))).filter
            (fun r => !((st.existingRelations.map relationKey).contains
              (relationKey r)))).map relationKey := by
      simp only [stateAfterApply, relationsAfterApply, List.map_append,
        loadRelationsTrace_eq, List.map_map]
      rfl
    rw [hkeys]
    have hmem : relationKey r ∈
        st.existingRelations.map relationKey ++
          (((tpl.relationsBlob.getD []).filter (fun r =>
            !((extensionCollectionNames (tpl.collectionsBlob.getD [])).contains
                r.collection) &&
            !((extensionCollectionNames (tpl.collectionsBlob.getD [])).contains
                r.related_collection))).filter
            (fun r => !((st.existingRelations.map relationKey).contains
              (relationKey r)))).map relationKey := by
      by_cases hin : relationKey r ∈ st.existingRelations.map relationKey
      · exact List.mem_append_left _ hin
      · refine List.mem_append_right _ ?_
        refine List.mem_map_of_mem _ ?_
        rw [List.mem_filter]
        refine ⟨hr, ?_⟩
        simp only [Bool.not_eq_true']
        simpa using hin
    simpa using hmem

/-- Concrete instantiation of `C3_apply_idempotent`: after applying a
template with one `articles` record and one relation to an empty target, the
second run's skeleton difference for `articles` is empty, its skeleton unit
issues no create request, and its relation loader submits nothing. -/
theorem C3_apply_idempotent_witness :
    skeletonNewData [[("id", Val.vInt 1)]] "id"
        ((stateAfterApply
          ⟨some [⟨"articles", some (), ⟨none, false⟩⟩],
           some [⟨"articles", "id", some ⟨true⟩⟩],
           some [⟨"articles", "author_id", "authors", ⟨some (Val.vInt 3)⟩⟩],
           fun n => if n = "articles" then some [[("id", Val.vInt 1)]] else none,
           fun _ => none⟩
          ⟨["articles"], fun _ => [], []⟩).pks "articles") = [] ∧
    runSkeletonCollection (some [[("id", Val.vInt 1)]])
        (getCollectionPrimaryKeys [⟨"articles", "id", some ⟨true⟩⟩])
        ((stateAfterApply
          ⟨some [⟨"articles", some (), ⟨none, false⟩⟩],
           some [⟨"articles", "id", some ⟨true⟩⟩],
           some [⟨"articles", "author_id", "authors", ⟨some (Val.vInt 3)⟩⟩],
           fun n => if n = "articles" then some [[("id", Val.vInt 1)]] else none,
           fun _ => none⟩
          ⟨["articles"], fun _ => [], []⟩).pks "articles") "articles" = .ok [] ∧
    loadRelationsTrace [⟨"articles", "author_id", "authors", ⟨some (Val.vInt 3)⟩⟩]
        [⟨"articles", some (), ⟨none, false⟩⟩]
        (stateAfterApply
          ⟨some [⟨"articles", some (), ⟨none, false⟩⟩],
           some [⟨"articles", "id", some ⟨true⟩⟩],
           some [⟨"articles", "author_id", "authors", ⟨some (Val.vInt 3)⟩⟩],
           fun n => if n = "articles" then some [[("id", Val.vInt 1)]] else none,
           fun _ => none⟩
          ⟨["articles"], fun _ => [], []⟩).existingRelations = [] :=
  C3_apply_idempotent
    ⟨some [⟨"articles", some (), ⟨none, false⟩⟩],
     some [⟨"articles", "id", some ⟨true⟩⟩],
     some [⟨"articles", "author_id", "authors", ⟨some (Val.vInt 3)⟩⟩],
     fun n => if n = "articles" then some [[("id", Val.vInt 1)]] else none,
     fun _ => none⟩
    ⟨["articles"], fun _ => [], []⟩
    "articles" "id" [[("id", Val.vInt 1)]] rfl rfl

end Directus
